import Mathlib

/-!
Shallow embedding of the repository's two source files:

* `src/Tugas_Mandiri.py` — a rule-based course-registration pipeline: a
  `RegistrationService` coordinator applies an injected ordered list of
  validation rules (`SksLimitRule`, `PrerequisiteRule`, `JadwalBentrokRule`)
  to a `(Student, Course)` pair and commits the mutation only if all pass.
* `src/refactor_solid.py` — an order-checkout coordinator
  (`CheckoutService.run_checkout`) delegating to an injected payment
  processor and notifier, plus the illustrative "before" class
  `OrderManager.process_checkout`.

Modelling conventions:
* Python in-place mutation is modelled by returning the updated record.
* Every rule implements `validate(student, course) -> bool` and, per the
  `IValidationRule` contract, must not mutate its arguments; rules are
  embedded as pure functions `Student → Course → Bool`, so non-mutation
  holds by construction.
* `register_course` additionally returns the number of `validate` calls the
  loop performed, so that short-circuit evaluation is observable.
* `run_checkout` additionally returns the list of orders passed to the
  notifier's `send`, in call order.
* Log output is modelled only where a property depends on it:
  `OrderManager.process_checkout` returns its printed lines.
-/

/-- `Student` dataclass of `Tugas_Mandiri.py`. Python `int` is unbounded, so
`current_sks` is an `Int`. -/
structure Student where
  name : String
  current_sks : Int
  prerequisites_met : Bool
  schedule : List String
  deriving DecidableEq, Repr

/-- `Course` dataclass of `Tugas_Mandiri.py`. -/
structure Course where
  code : String
  sks : Int
  prerequisite_needed : Bool
  schedule_code : String
  deriving DecidableEq, Repr

/-- A validation rule, the `IValidationRule.validate` capability: a pure
predicate over the `(student, course)` pair. -/
abbrev Rule := Student → Course → Bool

/-- `SksLimitRule.MAX_SKS`. -/
def SksLimitRule.MAX_SKS : Int := 24

/-- `SksLimitRule.validate`: fails when adding the course's credits would
exceed `MAX_SKS`. -/
def SksLimitRule.validate (student : Student) (course : Course) : Bool :=
  if student.current_sks + course.sks > SksLimitRule.MAX_SKS then
    false
  else
    true

/-- `PrerequisiteRule.validate`: fails when the course needs a prerequisite
the student has not met. -/
def PrerequisiteRule.validate (student : Student) (course : Course) : Bool :=
  if course.prerequisite_needed && !student.prerequisites_met then
    false
  else
    true

/-- `JadwalBentrokRule.validate`: fails when the course's schedule code is
already in the student's schedule list. -/
def JadwalBentrokRule.validate (student : Student) (course : Course) : Bool :=
  if student.schedule.contains course.schedule_code then
    false
  else
    true

/-- `RegistrationService.register_course`. The loop over
`self.validation_rules` becomes structural recursion on the injected list;
on the first failing rule it returns `false` with the student unchanged, and
only after all rules pass does it commit
`student.current_sks += course.sks` and
`student.schedule.append(course.schedule_code)`.
Returns `(result, final student state, number of validate calls)`. -/
def RegistrationService.register_course :
    List Rule → Student → Course → Bool × Student × Nat
  | [], student, course =>
      (true,
       { student with
           current_sks := student.current_sks + course.sks,
           schedule := student.schedule ++ [course.schedule_code] },
       0)
  | rule :: rest, student, course =>
      if rule student course then
        let r := RegistrationService.register_course rest student course
        (r.1, r.2.1, r.2.2 + 1)
      else
        (false, student, 1)

/-- `Order` dataclass of `refactor_solid.py`. `total_price` is a Python
float that is only carried, never computed with, so it is embedded as an
opaque type parameter. -/
structure Order (α : Type) where
  customer_name : String
  total_price : α
  status : String := "open"
  deriving DecidableEq

/-- `OrderManager.process_checkout`, the illustrative "before" example.
Returns `(result, final order state, printed lines)`. -/
def OrderManager.process_checkout {α : Type} (order : Order α)
    (payment_method : String) : Bool × Order α × List String :=
  let intro_line := "Memulai checkout untuk " ++ order.customer_name ++ "..."
  if payment_method = "credit_card" then
    (true, { order with status := "paid" },
     [intro_line, "Processing Credit Card...",
      "Mengirim notifikasi ke " ++ order.customer_name ++ "..."])
  else if payment_method = "bank_transfer" then
    (true, { order with status := "paid" },
     [intro_line, "Processing Bank Transfer...",
      "Mengirim notifikasi ke " ++ order.customer_name ++ "..."])
  else
    (false, order, [intro_line, "Metode tidak valid."])

/-- `CheckoutService.run_checkout` with an injected payment processor
(`process(order) -> bool`, pure per the `IPaymentProcessor` contract).
Returns `(result, final order state, orders passed to the notifier's send)`:
the notifier receives the order after its status was set to `"paid"`. -/
def CheckoutService.run_checkout {α : Type} (process : Order α → Bool)
    (order : Order α) : Bool × Order α × List (Order α) :=
  if process order then
    let paid := { order with status := "paid" }
    (true, paid, [paid])
  else
    (false, order, [])

/-! Demo data of the two scripts, used as concrete witnesses. -/

def student_andi : Student :=
  { name := "Andi", current_sks := 15, prerequisites_met := true,
    schedule := ["Selasa_10.00", "Rabu_13.00"] }

def student_budi : Student :=
  { name := "Budi", current_sks := 22, prerequisites_met := false,
    schedule := ["Jumat_08.00"] }

def course_pbo : Course :=
  { code := "PBO", sks := 3, prerequisite_needed := false,
    schedule_code := "Senin_08.00" }

def course_pweb : Course :=
  { code := "Pweb", sks := 4, prerequisite_needed := true,
    schedule_code := "Selasa_10.00" }

def initial_rules : List Rule :=
  [SksLimitRule.validate, PrerequisiteRule.validate]

def ocp_rules : List Rule :=
  [SksLimitRule.validate, PrerequisiteRule.validate, JadwalBentrokRule.validate]

def order_andi : Order Int :=
  { customer_name := "Andi", total_price := 500000, status := "open" }

def order_budi_paid : Order Int :=
  { customer_name := "Budi", total_price := 100000, status := "paid" }

/-! Helper lemmas about `register_course`. -/

/-- The committed student state after a fully successful registration run. -/
def registration_commit (student : Student) (course : Course) : Student :=
  { student with
      current_sks := student.current_sks + course.sks,
      schedule := student.schedule ++ [course.schedule_code] }

theorem register_course_fst_eq_all (L : List Rule) (s : Student) (c : Course) :
    (RegistrationService.register_course L s c).1 = L.all (fun r => r s c) := by
  induction L with
  | nil => simp [RegistrationService.register_course]
  | cons r t ih =>
      cases hr : r s c <;>
        simp [RegistrationService.register_course, hr, ih]

theorem register_course_of_all (L : List Rule) (s : Student) (c : Course)
    (h : L.all (fun r => r s c) = true) :
    RegistrationService.register_course L s c =
      (true, registration_commit s c, L.length) := by
  induction L with
  | nil => simp [RegistrationService.register_course, registration_commit]
  | cons r t ih =>
      simp only [List.all_cons, Bool.and_eq_true] at h
      simp [RegistrationService.register_course, h.1, ih h.2]

theorem register_course_student_of_fail (L : List Rule) (s : Student)
    (c : Course) (h : L.all (fun r => r s c) = false) :
    (RegistrationService.register_course L s c).2.1 = s := by
  induction L with
  | nil => simp at h
  | cons r t ih =>
      cases hr : r s c with
      | false => simp [RegistrationService.register_course, hr]
      | true =>
          simp only [List.all_cons, hr, Bool.true_and] at h
          simp [RegistrationService.register_course, hr, ih h]

theorem register_course_first_fail (L : List Rule) (s : Student) (c : Course) :
    ∀ i r, L[i]? = some r → r s c = false →
      (∀ q ∈ L.take i, q s c = true) →
      RegistrationService.register_course L s c = (false, s, i + 1) := by
  induction L with
  | nil => intro i r hget; simp at hget
  | cons q t ih =>
      intro i r hget hr hpre
      cases i with
      | zero =>
          simp only [List.getElem?_cons_zero, Option.some.injEq] at hget
          subst hget
          simp [RegistrationService.register_course, hr]
      | succ i =>
          have hq : q s c = true := hpre q (by simp)
          have ht := ih i r (by simpa using hget) hr
            (fun x hx => hpre x (by simp [List.take_succ_cons, hx]))
          simp [RegistrationService.register_course, hq, ht]

theorem getElem?_take_of_lt' (L : List Rule) (n i : Nat) (h : i < n) :
    (L.take n)[i]? = L[i]? := by
  induction L generalizing n i with
  | nil => simp
  | cons q t ih =>
      cases n with
      | zero => omega
      | succ n =>
          cases i with
          | zero => simp
          | succ i => simpa using ih n i (by omega)

/-! Claim theorems. -/

/-- C1: `register_course` returns true iff every injected rule's `validate`
returns true on `(S, C)`; and when it returns true, `S.current_sks` is
increased by exactly `C.sks` and `C.schedule_code` is appended to the end of
`S.schedule`. -/
theorem register_course_success_iff_all_rules (L : List Rule) (s : Student)
    (c : Course) :
    ((RegistrationService.register_course L s c).1 = true ↔
        ∀ r ∈ L, r s c = true) ∧
    ((RegistrationService.register_course L s c).1 = true →
      ((RegistrationService.register_course L s c).2.1).current_sks
          = s.current_sks + c.sks ∧
      ((RegistrationService.register_course L s c).2.1).schedule
          = s.schedule ++ [c.schedule_code]) := by
  constructor
  · rw [register_course_fst_eq_all]
    exact List.all_eq_true
  · intro h
    have hall : L.all (fun r => r s c) = true := by
      rwa [register_course_fst_eq_all] at h
    rw [register_course_of_all L s c hall]
    exact ⟨rfl, rfl⟩

theorem register_course_success_iff_all_rules_witness :
    ((RegistrationService.register_course initial_rules student_andi
        course_pbo).2.1).current_sks
      = student_andi.current_sks + course_pbo.sks ∧
    ((RegistrationService.register_course initial_rules student_andi
        course_pbo).2.1).schedule
      = student_andi.schedule ++ [course_pbo.schedule_code] :=
  (register_course_success_iff_all_rules initial_rules student_andi
    course_pbo).2 (by decide)

/-- C2: if any injected rule's `validate` returns false on `(S, C)`, then
`register_course` returns false and the student is unchanged after the call
(no partial mutation on failure). -/
theorem register_course_fail_unchanged (L : List Rule) (s : Student)
    (c : Course) (h : ∃ r ∈ L, r s c = false) :
    (RegistrationService.register_course L s c).1 = false ∧
    (RegistrationService.register_course L s c).2.1 = s := by
  have hall : L.all (fun r => r s c) = false := by
    rcases h with ⟨r, hmem, hr⟩
    cases hcase : L.all fun r => r s c with
    | false => rfl
    | true => rw [List.all_eq_true.mp hcase r hmem] at hr; cases hr
  exact ⟨by rw [register_course_fst_eq_all]; exact hall,
    register_course_student_of_fail L s c hall⟩

theorem register_course_fail_unchanged_witness :
    (RegistrationService.register_course ocp_rules student_andi
        course_pweb).1 = false ∧
    (RegistrationService.register_course ocp_rules student_andi
        course_pweb).2.1 = student_andi :=
  register_course_fail_unchanged ocp_rules student_andi course_pweb
    ⟨JadwalBentrokRule.validate, by simp [ocp_rules], by decide⟩

/-- C4: `SksLimitRule.validate` returns true iff
`current_sks + course.sks ≤ 24`; it cannot mutate the student or the course,
as validation rules are embedded as pure predicates. -/
theorem sks_limit_rule_iff (s : Student) (c : Course) :
    SksLimitRule.validate s c = true ↔ s.current_sks + c.sks ≤ 24 := by
  simp [SksLimitRule.validate, SksLimitRule.MAX_SKS]

/-- C5: `JadwalBentrokRule.validate` returns true iff the course's
`schedule_code` is not in the student's schedule as passed to the call (the
pre-mutation state during a `register_course` run, since all rules run
before any mutation); it cannot mutate either argument. -/
theorem jadwal_bentrok_rule_iff (s : Student) (c : Course) :
    JadwalBentrokRule.validate s c = true ↔ c.schedule_code ∉ s.schedule := by
  by_cases h : s.schedule.contains c.schedule_code = true <;>
    simp_all [JadwalBentrokRule.validate, List.elem_iff]

/-- C6: `PrerequisiteRule.validate` returns false iff the course needs a
prerequisite and the student has not met it; in every other case it returns
true; it cannot mutate either argument. -/
theorem prerequisite_rule_false_iff (s : Student) (c : Course) :
    PrerequisiteRule.validate s c = false ↔
      c.prerequisite_needed = true ∧ s.prerequisites_met = false := by
  cases hn : c.prerequisite_needed <;> cases hm : s.prerequisites_met <;>
    simp [PrerequisiteRule.validate, hn, hm]

/-- C3: `run_checkout` sets the status to `"paid"`, sends exactly one
notification (with the paid order), and returns true iff the injected
processor returns true on the order; if the processor returns false it
returns false, the notifier is never invoked, and the order — in particular
a pre-call `"open"` status — is unchanged. -/
theorem run_checkout_paid_iff_processor (α : Type) (p : Order α → Bool)
    (o : Order α) :
    ((CheckoutService.run_checkout p o).1 = true ↔ p o = true) ∧
    (p o = true →
      ((CheckoutService.run_checkout p o).2.1).status = "paid" ∧
      (CheckoutService.run_checkout p o).2.2 = [{ o with status := "paid" }]) ∧
    (p o = false →
      CheckoutService.run_checkout p o = (false, o, [])) := by
  cases hp : p o <;> simp [CheckoutService.run_checkout, hp]

theorem run_checkout_paid_iff_processor_witness :
    CheckoutService.run_checkout (fun _ : Order Int => false) order_andi
      = (false, order_andi, []) :=
  (run_checkout_paid_iff_processor Int (fun _ => false) order_andi).2.2 rfl

/-- C7: rule evaluation in `register_course` short-circuits: when the first
failing rule sits at index `i`, the call returns false with the student
unchanged after exactly `i + 1` `validate` calls (so no rule beyond index
`i` is evaluated), and any rule list agreeing with `L` on indices `0..i`
yields the identical result and final student state. -/
theorem register_course_short_circuit (L L₂ : List Rule) (s : Student)
    (c : Course) (i : Nat) (r : Rule)
    (hget : L[i]? = some r) (hr : r s c = false)
    (hpre : ∀ q ∈ L.take i, q s c = true)
    (hagree : L.take (i + 1) = L₂.take (i + 1)) :
    RegistrationService.register_course L s c = (false, s, i + 1) ∧
    RegistrationService.register_course L₂ s c =
      RegistrationService.register_course L s c := by
  have h₁ := register_course_first_fail L s c i r hget hr hpre
  have hget₂ : L₂[i]? = some r := by
    have := getElem?_take_of_lt' L₂ (i + 1) i (by omega)
    rw [← this, ← hagree, getElem?_take_of_lt' L (i + 1) i (by omega)]
    exact hget
  have htake : L₂.take i = L.take i := by
    have h₂ : (L₂.take (i + 1)).take i = L₂.take i := by
      rw [List.take_take]; simp [Nat.min_eq_left (Nat.le_succ i)]
    have h₃ : (L.take (i + 1)).take i = L.take i := by
      rw [List.take_take]; simp [Nat.min_eq_left (Nat.le_succ i)]
    rw [← h₂, ← hagree, h₃]
  have hpre₂ : ∀ q ∈ L₂.take i, q s c = true := by
    intro q hq; exact hpre q (htake ▸ hq)
  have h₂ := register_course_first_fail L₂ s c i r hget₂ hr hpre₂
  exact ⟨h₁, h₂.trans h₁.symm⟩

theorem register_course_short_circuit_witness :
    RegistrationService.register_course initial_rules student_budi course_pweb
      = (false, student_budi, 1) ∧
    RegistrationService.register_course [SksLimitRule.validate] student_budi
        course_pweb
      = RegistrationService.register_course initial_rules student_budi
          course_pweb :=
  register_course_short_circuit initial_rules [SksLimitRule.validate]
    student_budi course_pweb 0 SksLimitRule.validate rfl (by decide)
    (by simp [initial_rules]) rfl

/-- C8: the "before" example `OrderManager.process_checkout` returns false
for a payment method that is neither `"credit_card"` nor `"bank_transfer"`,
printing the error line and leaving the order unchanged; for either
recognized method it sets the status to `"paid"` and returns true. -/
theorem process_checkout_unknown_method (α : Type) (o : Order α)
    (pm : String) :
    (pm ≠ "credit_card" → pm ≠ "bank_transfer" →
      (OrderManager.process_checkout o pm).1 = false ∧
      (OrderManager.process_checkout o pm).2.1 = o ∧
      "Metode tidak valid." ∈ (OrderManager.process_checkout o pm).2.2) ∧
    (pm = "credit_card" ∨ pm = "bank_transfer" →
      (OrderManager.process_checkout o pm).1 = true ∧
      ((OrderManager.process_checkout o pm).2.1).status = "paid") := by
  constructor
  · intro h₁ h₂
    simp [OrderManager.process_checkout, h₁, h₂]
  · rintro (h | h) <;> simp [OrderManager.process_checkout, h]

theorem process_checkout_unknown_method_witness :
    (OrderManager.process_checkout order_andi "qris").1 = false ∧
    (OrderManager.process_checkout order_andi "qris").2.1 = order_andi ∧
    "Metode tidak valid." ∈ (OrderManager.process_checkout order_andi
        "qris").2.2 :=
  (process_checkout_unknown_method Int order_andi "qris").1 (by decide)
    (by decide)

/-- C9: `run_checkout` never reads the order's prior status: for any initial
status (also `"paid"`), a true processor result sets the status to `"paid"`,
notifies once, and returns true — so an already-paid order is re-notified —
and a false processor result leaves the arbitrary initial status (and the
whole order) unchanged. -/
theorem run_checkout_ignores_prior_status (α : Type) (p : Order α → Bool)
    (o : Order α) :
    (p o = true →
      CheckoutService.run_checkout p o
        = (true, { o with status := "paid" }, [{ o with status := "paid" }])) ∧
    (p o = false →
      CheckoutService.run_checkout p o = (false, o, [])) := by
  cases hp : p o <;> simp [CheckoutService.run_checkout, hp]

theorem run_checkout_ignores_prior_status_witness :
    CheckoutService.run_checkout (fun _ : Order Int => true) order_budi_paid
      = (true, { order_budi_paid with status := "paid" },
         [{ order_budi_paid with status := "paid" }]) :=
  (run_checkout_ignores_prior_status Int (fun _ => true) order_budi_paid).1 rfl

/-! C10: the credit-limit invariant. -/

/-- A sequence of `register_course` calls through one service, each call
acting on the student state left by the previous one. -/
def register_sequence (L : List Rule) (s : Student) (cs : List Course) :
    Student :=
  cs.foldl (fun st c => (RegistrationService.register_course L st c).2.1) s

theorem sks_le_of_step (L : List Rule)
    (hmem : SksLimitRule.validate ∈ L) (s : Student)
    (hs : s.current_sks ≤ 24) (c : Course) :
    ((RegistrationService.register_course L s c).2.1).current_sks ≤ 24 := by
  cases hall : L.all (fun r => r s c) with
  | false =>
      rw [register_course_student_of_fail L s c hall]
      exact hs
  | true =>
      have hv : SksLimitRule.validate s c = true := by
        simpa using List.all_eq_true.mp hall _ hmem
      have hsum : s.current_sks + c.sks ≤ 24 := (sks_limit_rule_iff s c).mp hv
      rw [register_course_of_all L s c hall]
      exact hsum

theorem sks_le_of_sequence (L : List Rule)
    (hmem : SksLimitRule.validate ∈ L) (s : Student)
    (hs : s.current_sks ≤ 24) (cs : List Course) :
    (register_sequence L s cs).current_sks ≤ 24 := by
  induction cs generalizing s with
  | nil => exact hs
  | cons c cs ih =>
      exact ih _ (sks_le_of_step L hmem s hs c)

/-- C10: when `SksLimitRule` is among the injected rules, the predicate
`current_sks ≤ 24` is preserved by `register_course`: on success the new
load is the checked sum `current_sks + sks` (hence at most 24), on failure
the load is unchanged, and any sequence of calls starting at
`current_sks ≤ 24` stays at `current_sks ≤ 24`. -/
theorem sks_invariant_preserved (L : List Rule) (c : Course)
    (cs : List Course) (hmem : SksLimitRule.validate ∈ L) (s : Student)
    (hs : s.current_sks ≤ 24) :
    ((RegistrationService.register_course L s c).2.1).current_sks ≤ 24 ∧
    ((RegistrationService.register_course L s c).1 = true →
      ((RegistrationService.register_course L s c).2.1).current_sks
        = s.current_sks + c.sks) ∧
    (register_sequence L s cs).current_sks ≤ 24 := by
  refine ⟨sks_le_of_step L hmem s hs c, ?_, sks_le_of_sequence L hmem s hs cs⟩
  intro h
  have hall : L.all (fun r => r s c) = true := by
    rwa [register_course_fst_eq_all] at h
  rw [register_course_of_all L s c hall]
  rfl

theorem sks_invariant_preserved_witness :
    ((RegistrationService.register_course initial_rules student_andi
        course_pbo).2.1).current_sks ≤ 24 ∧
    ((RegistrationService.register_course initial_rules student_andi
        course_pbo).1 = true →
      ((RegistrationService.register_course initial_rules student_andi
          course_pbo).2.1).current_sks
        = student_andi.current_sks + course_pbo.sks) ∧
    (register_sequence initial_rules student_andi
        [course_pbo, course_pweb]).current_sks ≤ 24 :=
  sks_invariant_preserved initial_rules course_pbo [course_pbo, course_pweb]
    (by simp [initial_rules]) student_andi (by decide)
